import Mathlib

/-!
Verification of the `AddonInfo` resolution engine of ember-addon-migrator
(`src/cli/src/analysis/index.js`), shallowly embedded in Lean 4.

Modelling conventions:
* JavaScript strings are Lean `String`; object maps (`dependencies`,
  `devDependencies`) are association lists `List (String × String)`;
  absent fields that the source reaches through optional chaining (`?.`)
  are `Option`.
* JavaScript truthiness on strings: a string is falsy exactly when it is
  empty, so `x || fallback` on an optional string field is `jsOr`.
* `String.prototype.replace` with a single-character string pattern
  replaces the first occurrence only (`replaceFirst`); `split` splits on
  every occurrence (`splitOnChar`).
* The manifest field `"ember-addon"` is `Option EmberAddonMeta` (an object
  is truthy iff present); `"version" in emberAddon` is `version.isSome`;
  the field `"ember"` only ever has its truthiness observed, so it is
  modelled as the `Bool` of that truthiness.
* The asynchronous construction protocol `AddonInfo.create` takes the
  outcomes of the external fact gatherers as explicit inputs and returns
  the `Except` result paired with the trace of gatherer steps it invoked,
  in order.
-/

/-- Kind of the detected package manager, the `'npm' | 'yarn' | 'pnpm'` union
of the source. -/
inductive PackageManagerKind where
  | npm
  | yarn
  | pnpm
deriving DecidableEq

/-- Value of the manifest's `"ember-addon"` field when present: an object
whose `version` key may be absent (`none`) or hold an integer tag. -/
structure EmberAddonMeta where
  version : Option Int
deriving DecidableEq

/-- Parsed `package.json` manifest, restricted to the fields the engine
reads. `ember` records the truthiness of the `"ember"` field, the only
thing the source observes about it. -/
structure PackageJson where
  name : String
  dependencies : Option (List (String × String))
  devDependencies : Option (List (String × String))
  keywords : Option (List String)
  emberAddon : Option EmberAddonMeta
  ember : Bool
deriving DecidableEq

/-- User-supplied options (`src/cli/src/types.ts`, interface `Options`).
The four string fields are optional overrides at runtime; `none` models an
absent field. -/
structure Options where
  reuseExistingVersions : Bool
  ignoreNewDependencies : Bool
  reuseExistingConfigs : Bool
  analysisOnly : Bool
  addonLocation : Option String
  testAppLocation : Option String
  testAppName : Option String
  directory : Option String
deriving DecidableEq

/-- JavaScript `field || fallback` on an optional string field: the
fallback is taken when the field is absent or the empty string (the only
falsy string). -/
def jsOr (field : Option String) (fallback : String) : String :=
  match field with
  | some s => if s = "" then fallback else s
  | none => fallback

/-- JavaScript `String.prototype.replace` with a one-character pattern:
replace the first occurrence of `target` by `repl`, or leave the string
unchanged when `target` does not occur. -/
def replaceFirst (target : Char) (repl : List Char) : List Char → List Char
  | [] => []
  | c :: cs => if c = target then repl ++ cs else c :: replaceFirst target repl cs

/-- JavaScript `String.prototype.split` with a one-character separator:
split on every occurrence; the empty string splits to `[""]`. -/
def splitOnChar (sep : Char) : List Char → List (List Char)
  | [] => [[]]
  | c :: cs =>
    let rest := splitOnChar sep cs
    if c = sep then [] :: rest
    else
      match rest with
      | [] => [[c]]
      | seg :: segs => (c :: seg) :: segs

/-- Helper `pathifyNpmName` of the source:
`name.replace('@', '').replace('/', '__')`. -/
def pathifyNpmName (name : String) : String :=
  String.mk (replaceFirst '/' ['_', '_'] (replaceFirst '@' [] name.data))

/-- The resolved, immutable context: the fields of class `AddonInfo`
(including the private `#options` and `#tmpDirectory`). -/
structure AddonInfo where
  packageJson : PackageJson
  options : Options
  packageManager : PackageManagerKind
  packageManagerRoot : String
  gitRoot : String
  tmpDirectory : String
  importedDependencies : List String
deriving DecidableEq

/-- Getter `name`: `this.packageJson.name`. -/
def AddonInfo.name (i : AddonInfo) : String :=
  i.packageJson.name

/-- Private getter `#localDependencyNames`: the key set of
`{...dependencies, ...devDependencies}` (spreading an absent map adds
nothing). -/
def AddonInfo.localDependencyNames (i : AddonInfo) : List String :=
  ((i.packageJson.dependencies.getD []).map Prod.fst) ++
    ((i.packageJson.devDependencies.getD []).map Prod.fst)

/-- Getter `isTS`: `#localDependencyNames.has('typescript')`. -/
def AddonInfo.isTS (i : AddonInfo) : Bool :=
  i.localDependencyNames.contains "typescript"

/-- Getter `isYarn`. -/
def AddonInfo.isYarn (i : AddonInfo) : Bool :=
  i.packageManager = PackageManagerKind.yarn

/-- Getter `isNpm`. -/
def AddonInfo.isNpm (i : AddonInfo) : Bool :=
  i.packageManager = PackageManagerKind.npm

/-- Getter `isPnpm`. -/
def AddonInfo.isPnpm (i : AddonInfo) : Bool :=
  i.packageManager = PackageManagerKind.pnpm

/-- Getter `isEmber`:
`Boolean(this.packageJson['ember-addon'] || this.packageJson['ember'])`.
An object field is truthy exactly when present. -/
def AddonInfo.isEmber (i : AddonInfo) : Bool :=
  i.packageJson.emberAddon.isSome || i.packageJson.ember

/-- Getter `isAddon`:
`isEmber && Boolean(this.packageJson.keywords?.includes('ember-addon'))`. -/
def AddonInfo.isAddon (i : AddonInfo) : Bool :=
  i.isEmber &&
    match i.packageJson.keywords with
    | some ks => ks.contains "ember-addon"
    | none => false

/-- Getter `isV2Addon`: false unless `isAddon`; then true exactly when the
`ember-addon` object is present, has a `version` key, and that version is
`=== 2`. -/
def AddonInfo.isV2Addon (i : AddonInfo) : Bool :=
  if !i.isAddon then false
  else
    match i.packageJson.emberAddon with
    | some emberAddon =>
      match emberAddon.version with
      | some v => v == 2
      | none => false
    | none => false

/-- Getter `isV1Addon`: `this.isAddon && !this.isV2Addon`. -/
def AddonInfo.isV1Addon (i : AddonInfo) : Bool :=
  i.isAddon && !i.isV2Addon

/-- Getter `isBiggerMonorepo`:
`this.packageManagerRoot !== this.gitRoot` (strict string comparison). -/
def AddonInfo.isBiggerMonorepo (i : AddonInfo) : Bool :=
  i.packageManagerRoot != i.gitRoot

/-- Getter `directory`: `this.#options.directory || process.cwd()`. The
ambient current working directory is an explicit argument because the
source reads `process.cwd()` at call time. -/
def AddonInfo.directory (i : AddonInfo) (cwd : String) : String :=
  jsOr i.options.directory cwd

/-- Getter `tmpLocation`: `this.#tmpDirectory`. -/
def AddonInfo.tmpLocation (i : AddonInfo) : String :=
  i.tmpDirectory

/-- Getter `addonLocation`: in a bigger monorepo the option else the
literal `'pacakge'` (sic, the source's spelling); otherwise the option
else `this.name.split('/')[1] ?? this.name`. -/
def AddonInfo.addonLocation (i : AddonInfo) : String :=
  if i.isBiggerMonorepo then
    jsOr i.options.addonLocation "pacakge"
  else
    jsOr i.options.addonLocation
      ((((splitOnChar '/' i.name.data).get? 1).map String.mk).getD i.name)

/-- Getter `testAppLocation`: `this.#options.testAppLocation || 'test-app'`. -/
def AddonInfo.testAppLocation (i : AddonInfo) : String :=
  jsOr i.options.testAppLocation "test-app"

/-- Getter `testAppName`: in a bigger monorepo the option else
`` `test-app-for-${pathifyNpmName(this.name)}` ``; otherwise the option
else `'test-app'`. -/
def AddonInfo.testAppName (i : AddonInfo) : String :=
  if i.isBiggerMonorepo then
    jsOr i.options.testAppName ("test-app-for-" ++ pathifyNpmName i.name)
  else
    jsOr i.options.testAppName "test-app"

/-- Method `hasDependency`:
`Boolean(this.packageJson.dependencies?.[dep])` — truthiness of the looked
up version string (the empty string is falsy). -/
def AddonInfo.hasDependency (i : AddonInfo) (dep : String) : Bool :=
  match i.packageJson.dependencies with
  | some deps =>
    match deps.lookup dep with
    | some v => v != ""
    | none => false
  | none => false

/-- Method `hasDevDependency`:
`Boolean(this.packageJson.devDependencies?.[dep])`. -/
def AddonInfo.hasDevDependency (i : AddonInfo) (dep : String) : Bool :=
  match i.packageJson.devDependencies with
  | some deps =>
    match deps.lookup dep with
    | some v => v != ""
    | none => false
  | none => false

/-! ## The construction protocol `AddonInfo.create` -/

/-- Result of `guessPackageManager`: the detected manager and the directory
owning its lockfile. -/
structure PackageManagerResult where
  manager : PackageManagerKind
  root : String
deriving DecidableEq

/-- Outcomes of the external fact gatherers consumed by `AddonInfo.create`.
`packageJsonRead`, `findRoot` and `guessPackageManager` are fallible (the
source wraps them in `tryOrFail`); `analyzeImports` never fails (empty set
on no imports) and `createTmp` returns a fresh directory. -/
structure Gatherers where
  packageJsonRead : Except Unit PackageJson
  findRoot : Except Unit String
  guessPackageManager : Except Unit PackageManagerResult
  analyzeImports : List String
  createTmp : String

/-- Names of the gatherer steps of the construction protocol, in source
order, used to trace which gatherers a run invoked. -/
inductive Step where
  | readManifest
  | findRoot
  | guessPackageManager
  | analyzeImports
  | createTmp
deriving DecidableEq

/-- Modelled from the spec: `src/cli/src/analysis/error.js` (the error
classes and `tryOrFail`) is not under `src/`; following §7 of the spec the
construction failures form a four-way taxonomy, each carrying its
user-facing message. -/
inductive CreateError where
  | manifestReadError (message : String)
  | repoDiscoveryError (message : String)
  | packageManagerError (message : String)
  | nothingToDoError (message : String)
deriving DecidableEq

/-- Message the source passes to `tryOrFail` around `packageJson.read()`. -/
def manifestReadMessage : String :=
  "Could not read the package.json. Please either run ember-addon-migrator from a package directory, or specify a path to a package directory via --directory"

/-- Message the source passes to `tryOrFail` around `findRoot()`. -/
def repoDiscoveryMessage : String :=
  "Could not find git root. Only git is supported at this time."

/-- Message the source passes to `tryOrFail` around `guessPackageManager`. -/
def packageManagerMessage : String :=
  "Could not determine package manager. Only npm, yarn, and pnpm are supported at this time."

/-- Trace of a run of `create` that reached the end of the gatherer
pipeline: every step was invoked, in source order. -/
def allSteps : List Step :=
  [Step.readManifest, Step.findRoot, Step.guessPackageManager,
    Step.analyzeImports, Step.createTmp]

/-- Static method `AddonInfo.create`: the ordered, short-circuiting
construction protocol. Returns the `Except` outcome paired with the trace
of gatherer steps invoked. A manifest that already classifies as a V2
addon aborts with `NothingToDoError` after all gatherers ran. -/
def AddonInfo.create (opts : Options) (g : Gatherers) :
    Except CreateError AddonInfo × List Step :=
  match g.packageJsonRead with
  | .error _ =>
    (.error (.manifestReadError manifestReadMessage), [Step.readManifest])
  | .ok pkgJson =>
    match g.findRoot with
    | .error _ =>
      (.error (.repoDiscoveryError repoDiscoveryMessage),
        [Step.readManifest, Step.findRoot])
    | .ok repoRoot =>
      match g.guessPackageManager with
      | .error _ =>
        (.error (.packageManagerError packageManagerMessage),
          [Step.readManifest, Step.findRoot, Step.guessPackageManager])
      | .ok pm =>
        let importedDependencies := g.analyzeImports
        let tmpDirectory := g.createTmp
        let info : AddonInfo := {
          packageJson := pkgJson
          options := opts
          packageManager := pm.manager
          packageManagerRoot := pm.root
          gitRoot := repoRoot
          tmpDirectory := tmpDirectory
          importedDependencies := importedDependencies }
        if info.isV2Addon then
          (.error (.nothingToDoError
            (info.name ++ " is already a V2 addon. Migration will stop.")),
            allSteps)
        else
          (.ok info, allSteps)

/-! ## Helper lemmas about the string primitives -/

/-- Replacing the first occurrence of a character that does not occur in a
prefix skips that prefix. -/
theorem replaceFirst_append_of_not_mem (t : Char) (repl : List Char)
    (l r : List Char) (h : t ∉ l) :
    replaceFirst t repl (l ++ t :: r) = l ++ repl ++ r := by
  induction l with
  | nil => simp [replaceFirst]
  | cons c cs ih =>
    rw [List.mem_cons, not_or] at h
    show replaceFirst t repl (c :: (cs ++ t :: r)) = (c :: cs) ++ repl ++ r
    rw [replaceFirst, if_neg (Ne.symm h.1), ih h.2]
    simp

/-- Splitting a list that does not contain the separator yields that list as
the single segment. -/
theorem splitOnChar_of_not_mem (sep : Char) (l : List Char) (h : sep ∉ l) :
    splitOnChar sep l = [l] := by
  induction l with
  | nil => rfl
  | cons c cs ih =>
    rw [List.mem_cons, not_or] at h
    show splitOnChar sep (c :: cs) = [c :: cs]
    rw [splitOnChar, if_neg (Ne.symm h.1), ih h.2]

/-- Splitting peels off a separator-free prefix as the first segment. -/
theorem splitOnChar_append_of_not_mem (sep : Char) (l r : List Char)
    (h : sep ∉ l) :
    splitOnChar sep (l ++ sep :: r) = l :: splitOnChar sep r := by
  induction l with
  | nil => simp [splitOnChar]
  | cons c cs ih =>
    rw [List.mem_cons, not_or] at h
    show splitOnChar sep (c :: (cs ++ sep :: r)) = (c :: cs) :: splitOnChar sep r
    rw [splitOnChar, if_neg (Ne.symm h.1), ih h.2]

/-- Behaviour of `pathifyNpmName` on a well-formed scoped npm name: the
leading scope marker is stripped and the scope separator becomes a double
underscore. -/
theorem pathifyNpmName_scoped (scope n : String) (h : '/' ∉ scope.data) :
    pathifyNpmName ("@" ++ scope ++ "/" ++ n) = scope ++ "__" ++ n := by
  have hdata : ("@" ++ scope ++ "/" ++ n).data =
      '@' :: (scope.data ++ '/' :: n.data) := by
    simp [String.data_append]
  have h1 : replaceFirst '@' [] ('@' :: (scope.data ++ '/' :: n.data)) =
      scope.data ++ '/' :: n.data := by
    simp [replaceFirst]
  have h2 : replaceFirst '/' ['_', '_'] (scope.data ++ '/' :: n.data) =
      scope.data ++ ['_', '_'] ++ n.data :=
    replaceFirst_append_of_not_mem '/' ['_', '_'] scope.data n.data h
  apply String.ext
  simp only [pathifyNpmName, hdata, h1, h2]
  simp [String.data_append]

/-- Getter `isV2Addon` reads only the manifest: two contexts holding the
same manifest classify identically. -/
theorem isV2Addon_congr_packageJson (a b : AddonInfo)
    (h : a.packageJson = b.packageJson) : a.isV2Addon = b.isV2Addon := by
  simp only [AddonInfo.isV2Addon, AddonInfo.isAddon, AddonInfo.isEmber, h]

/-! ## Concrete contexts used as witnesses and counterexamples -/

/-- Options value with no overrides supplied. -/
def emptyOptions : Options :=
  { reuseExistingVersions := false, ignoreNewDependencies := false,
    reuseExistingConfigs := false, analysisOnly := false,
    addonLocation := none, testAppLocation := none, testAppName := none,
    directory := none }

/-- Manifest of a scoped v1 addon (version tag 1). -/
def pkgScopedV1 : PackageJson :=
  { name := "@scope/name", dependencies := none, devDependencies := none,
    keywords := some ["ember-addon"],
    emberAddon := some { version := some 1 }, ember := false }

/-- Context for `pkgScopedV1` inside a bigger monorepo (package-manager
root strictly below the git root), with no option overrides. -/
def infoBigger : AddonInfo :=
  { packageJson := pkgScopedV1, options := emptyOptions,
    packageManager := PackageManagerKind.pnpm,
    packageManagerRoot := "/repo/addon", gitRoot := "/repo",
    tmpDirectory := "/tmp/scratch", importedDependencies := [] }

/-- Context for `pkgScopedV1` in a solo repo (package-manager root equal to
the git root), with no option overrides. -/
def infoSolo : AddonInfo :=
  { packageJson := pkgScopedV1, options := emptyOptions,
    packageManager := PackageManagerKind.pnpm,
    packageManagerRoot := "/repo", gitRoot := "/repo",
    tmpDirectory := "/tmp/scratch", importedDependencies := [] }

/-- Manifest declaring the dependency `x` with the empty version string, a
falsy but present map entry. -/
def pkgFalsyDep : PackageJson :=
  { name := "pkg", dependencies := some [("x", "")],
    devDependencies := none, keywords := none, emberAddon := none,
    ember := false }

/-- Context whose manifest is `pkgFalsyDep`. -/
def infoFalsyDep : AddonInfo :=
  { packageJson := pkgFalsyDep, options := emptyOptions,
    packageManager := PackageManagerKind.npm,
    packageManagerRoot := "/repo", gitRoot := "/repo",
    tmpDirectory := "/tmp/scratch", importedDependencies := [] }

/-! ## Claim theorems -/

/-- C3: for every constructed context, `isBiggerMonorepo` is true exactly
when the package-manager root differs from the repository root as a string
value. -/
theorem isBiggerMonorepo_iff_roots_differ (i : AddonInfo) :
    i.isBiggerMonorepo = true ↔ i.packageManagerRoot ≠ i.gitRoot := by
  simp [AddonInfo.isBiggerMonorepo, bne_iff_ne]

/-- C4 counterexample: in `infoFalsyDep` the string `x` is a key of the
manifest's dependencies map, yet `hasDependency x` is false, because the
source tests truthiness of the looked-up value and the empty version
string is falsy. -/
theorem hasDependency_falsy_key :
    (List.lookup "x" (infoFalsyDep.packageJson.dependencies.getD [])).isSome
      = true ∧
    infoFalsyDep.hasDependency "x" = false := by
  decide

/-- C4 amended: `hasDependency dep` is true exactly when `dep` maps to a
truthy (non-empty) version string in the dependencies map; the
devDependencies map is ignored, so `hasDependency` is unchanged by any
replacement of it. -/
theorem hasDependency_truthy_iff (i : AddonInfo) (dep : String) :
    (i.hasDependency dep = true ↔
      ∃ v, (i.packageJson.dependencies.getD []).lookup dep = some v ∧
        v ≠ "") ∧
    (∀ dd, AddonInfo.hasDependency
        { i with packageJson :=
          { i.packageJson with devDependencies := dd } } dep =
      i.hasDependency dep) := by
  constructor
  · rw [AddonInfo.hasDependency]
    cases hdeps : i.packageJson.dependencies with
    | none => simp [hdeps]
    | some deps =>
      cases hl : deps.lookup dep with
      | none => simp [hdeps, hl]
      | some v => simp [hdeps, hl, bne_iff_ne]
  · intro dd
    rfl

/-- Reassembling a string from its character list gives the string back. -/
theorem string_mk_data (s : String) : String.mk s.data = s := rfl

/-- C5 evaluation: in a bigger monorepo with no addonLocation option the
`addonLocation` query evaluates to the misspelled literal `pacakge`, which
differs from `package`, the spelling the getter's own doc comment
(`defaults to <directory>/package`) and the spec prescribe. -/
theorem addonLocation_bigger_default_eval :
    infoBigger.isBiggerMonorepo = true ∧
    infoBigger.options.addonLocation = none ∧
    infoBigger.addonLocation = "pacakge" ∧
    ("pacakge" : String) ≠ "package" := by
  decide

/-- C9 counterexample: with no directory option stored, two calls of the
`directory` query on the very same context under different ambient working
directories return different results, so the query surface is not a pure
function of the stored facts alone. -/
theorem directory_cwd_dependent :
    infoSolo.options.directory = none ∧
    AddonInfo.directory infoSolo "/first/cwd" = "/first/cwd" ∧
    AddonInfo.directory infoSolo "/second/cwd" = "/second/cwd" ∧
    ("/first/cwd" : String) ≠ "/second/cwd" := by
  decide

/-- C9 amended: the `directory` query is a pure function of the stored
context and the ambient process working directory, and its result is
independent of the ambient working directory exactly when a truthy
(non-empty) directory option is stored; every other derived query takes
only the context. -/
theorem directory_pure_characterization (i : AddonInfo) :
    (∀ c c' : String, i.directory c = i.directory c') ↔
    (∃ d, i.options.directory = some d ∧ d ≠ "") := by
  constructor
  · intro hall
    cases hd : i.options.directory with
    | none =>
      have h2 := hall "a" "b"
      rw [AddonInfo.directory, AddonInfo.directory, hd] at h2
      exact absurd h2 (by decide)
    | some d =>
      by_cases hde : d = ""
      · subst hde
        have h2 := hall "a" "b"
        rw [AddonInfo.directory, AddonInfo.directory, hd] at h2
        exact absurd h2 (by decide)
      · exact ⟨d, rfl, hde⟩
  · rintro ⟨d, hd, hde⟩ c c'
    rw [AddonInfo.directory, AddonInfo.directory, hd]
    simp [jsOr, hde]

/-- C10: supplying any of the four optional string options as the empty
string is indistinguishable from leaving it absent, because the getters
test truthiness (`||`) rather than field presence; each query then returns
its default. -/
theorem empty_string_options_default (i : AddonInfo) (cwd : String) :
    AddonInfo.directory
        { i with options := { i.options with directory := some "" } } cwd =
      AddonInfo.directory
        { i with options := { i.options with directory := none } } cwd ∧
    AddonInfo.addonLocation
        { i with options := { i.options with addonLocation := some "" } } =
      AddonInfo.addonLocation
        { i with options := { i.options with addonLocation := none } } ∧
    AddonInfo.testAppLocation
        { i with options := { i.options with testAppLocation := some "" } } =
      AddonInfo.testAppLocation
        { i with options := { i.options with testAppLocation := none } } ∧
    AddonInfo.testAppName
        { i with options := { i.options with testAppName := some "" } } =
      AddonInfo.testAppName
        { i with options := { i.options with testAppName := none } } := by
  exact ⟨rfl, rfl, rfl, rfl⟩

/-- C7: a manifest with Ember-ness and the addon keyword whose
addon-metadata block lacks a version tag, or carries one different from 2,
classifies as a v1 addon and not as a v2 addon. -/
theorem v1_classification (i : AddonInfo)
    (h1 : i.isEmber = true)
    (h2 : ∃ ks, i.packageJson.keywords = some ks ∧ "ember-addon" ∈ ks)
    (h3 : ∀ m v, i.packageJson.emberAddon = some m → m.version = some v →
      v ≠ 2) :
    i.isV1Addon = true ∧ i.isV2Addon = false := by
  obtain ⟨ks, hks, hmem⟩ := h2
  have hAddon : i.isAddon = true := by
    rw [AddonInfo.isAddon, hks]
    simp [h1, hmem]
  have hV2 : i.isV2Addon = false := by
    rw [AddonInfo.isV2Addon]
    cases hma : i.packageJson.emberAddon with
    | none => simp [hAddon, hma]
    | some m =>
      cases hmv : m.version with
      | none => simp [hAddon, hma, hmv]
      | some v =>
        have hne := h3 m v hma hmv
        simp [hAddon, hma, hmv, hne]
  refine ⟨?_, hV2⟩
  rw [AddonInfo.isV1Addon, hAddon, hV2]
  rfl

/-- C7 witness: `infoBigger` holds a manifest with both Ember-ness markers
available, the addon keyword, and a version tag of 1, so it is a v1 addon
and not a v2 addon. -/
theorem v1_classification_witness :
    infoBigger.isV1Addon = true ∧ infoBigger.isV2Addon = false := by
  apply v1_classification infoBigger rfl ⟨["ember-addon"], rfl, by decide⟩
  intro m v hm hv
  have hm' : some (EmberAddonMeta.mk (some 1)) = some m := hm
  cases hm'
  have hv' : some (1 : Int) = some v := hv
  cases hv'
  decide

/-- C6: with no testAppName option stored, a bigger-monorepo context
resolves `testAppName` to the generated `test-app-for-` name, in which
`pathifyNpmName` strips the leading scope marker and turns the scope
separator into a double underscore; a solo-repo context resolves it to the
literal `test-app`. -/
theorem testAppName_resolution (i : AddonInfo)
    (h : i.options.testAppName = none) :
    (i.isBiggerMonorepo = true →
      i.testAppName = "test-app-for-" ++ pathifyNpmName i.name) ∧
    (∀ scope n : String, '/' ∉ scope.data →
      i.packageJson.name = "@" ++ scope ++ "/" ++ n →
      pathifyNpmName i.name = scope ++ "__" ++ n) ∧
    (i.isBiggerMonorepo = false → i.testAppName = "test-app") := by
  refine ⟨fun hb => ?_, fun scope n hs hname => ?_, fun hb => ?_⟩
  · simp [AddonInfo.testAppName, hb, h, jsOr]
  · rw [AddonInfo.name, hname]
    exact pathifyNpmName_scoped scope n hs
  · simp [AddonInfo.testAppName, hb, h, jsOr]

/-- C6 witness: for the scoped package name `@scope/name` in a bigger
monorepo with no testAppName option, the resolved test-app name is
`test-app-for-scope__name`. -/
theorem testAppName_resolution_witness :
    infoBigger.isBiggerMonorepo = true ∧
    infoBigger.testAppName = "test-app-for-scope__name" := by
  have h := testAppName_resolution infoBigger rfl
  refine ⟨by decide, ?_⟩
  rw [h.1 (by decide), h.2.1 "scope" "name" (by decide) (by decide)]
  decide

/-- C8: in a solo repo with no addonLocation option, a well-formed scoped
package name resolves `addonLocation` to the segment after the scope
separator, and an unscoped name resolves it to the full package name. -/
theorem addonLocation_solo_resolution (i : AddonInfo)
    (hM : i.isBiggerMonorepo = false)
    (hO : i.options.addonLocation = none) :
    (∀ scope n : String, '/' ∉ scope.data → '/' ∉ n.data →
      i.packageJson.name = "@" ++ scope ++ "/" ++ n →
      i.addonLocation = n) ∧
    ('/' ∉ i.packageJson.name.data → i.addonLocation = i.packageJson.name) := by
  constructor
  · intro scope n hs hn hnm
    have hdata : i.name.data = ('@' :: scope.data) ++ '/' :: n.data := by
      rw [AddonInfo.name, hnm]
      simp [String.data_append]
    have hsp : splitOnChar '/' i.name.data = ('@' :: scope.data) :: [n.data] := by
      rw [hdata, splitOnChar_append_of_not_mem '/' _ _
        (by rw [List.mem_cons, not_or]; exact ⟨by decide, hs⟩),
        splitOnChar_of_not_mem '/' _ hn]
    rw [AddonInfo.addonLocation]
    simp [hM, hO, jsOr, hsp, string_mk_data]
  · intro hnm
    have hsp : splitOnChar '/' i.packageJson.name.data =
        [i.packageJson.name.data] :=
      splitOnChar_of_not_mem '/' _ hnm
    rw [AddonInfo.addonLocation]
    simp [hM, hO, jsOr, AddonInfo.name, hsp, string_mk_data]

/-- C8 witness: in the solo-repo context `infoSolo` the scoped name
`@scope/name` resolves `addonLocation` to `name`. -/
theorem addonLocation_solo_resolution_witness :
    infoSolo.isBiggerMonorepo = false ∧ infoSolo.addonLocation = "name" := by
  have h := addonLocation_solo_resolution infoSolo (by decide) rfl
  exact ⟨by decide, h.1 "scope" "name" (by decide) (by decide) (by decide)⟩

/-- Manifest that already declares the v2 addon format: Ember-ness, the
addon keyword, and a version tag equal to 2. -/
def pkgV2 : PackageJson :=
  { name := "@scope/name", dependencies := none, devDependencies := none,
    keywords := some ["ember-addon"],
    emberAddon := some { version := some 2 }, ember := false }

/-- Context carrying `pkgV2`. -/
def infoV2 : AddonInfo :=
  { packageJson := pkgV2, options := emptyOptions,
    packageManager := PackageManagerKind.pnpm,
    packageManagerRoot := "/repo", gitRoot := "/repo",
    tmpDirectory := "/tmp/scratch", importedDependencies := [] }

/-- Gatherer outcomes that all succeed, the manifest read yielding `pkgV2`. -/
def gAllOkV2 : Gatherers :=
  { packageJsonRead := Except.ok pkgV2, findRoot := Except.ok "/repo",
    guessPackageManager :=
      Except.ok { manager := PackageManagerKind.pnpm, root := "/repo" },
    analyzeImports := [], createTmp := "/tmp/scratch" }

/-- Gatherer outcomes whose manifest read fails. -/
def gFailManifest : Gatherers :=
  { packageJsonRead := Except.error (), findRoot := Except.ok "/repo",
    guessPackageManager :=
      Except.ok { manager := PackageManagerKind.npm, root := "/repo" },
    analyzeImports := [], createTmp := "/tmp/scratch" }

/-- C1: a manifest with Ember-ness, the addon keyword, and an
addon-metadata version tag equal to 2 classifies as v2 and not v1, and a
context holding it is never returned: whenever the manifest read yields
that manifest, `AddonInfo.create` cannot succeed, and when the remaining
fallible gatherers succeed it aborts with `NothingToDoError` whose message
carries the package name. -/
theorem v2_manifest_aborts_create (i : AddonInfo)
    (h1 : i.isEmber = true)
    (h2 : ∃ ks, i.packageJson.keywords = some ks ∧ "ember-addon" ∈ ks)
    (h3 : ∃ m, i.packageJson.emberAddon = some m ∧ m.version = some 2) :
    i.isV2Addon = true ∧ i.isV1Addon = false ∧
    ∀ (opts : Options) (g : Gatherers),
      g.packageJsonRead = Except.ok i.packageJson →
      (∀ info, (AddonInfo.create opts g).1 ≠ Except.ok info) ∧
      (∀ root pm, g.findRoot = Except.ok root →
        g.guessPackageManager = Except.ok pm →
        (AddonInfo.create opts g).1 =
          Except.error (CreateError.nothingToDoError
            (i.packageJson.name ++
              " is already a V2 addon. Migration will stop."))) := by
  obtain ⟨ks, hks, hmem⟩ := h2
  obtain ⟨m, hma, hmv⟩ := h3
  have hAddon : i.isAddon = true := by
    rw [AddonInfo.isAddon, hks]
    simp [h1, hmem]
  have hV2 : i.isV2Addon = true := by
    rw [AddonInfo.isV2Addon]
    simp [hAddon, hma, hmv]
  have hV1 : i.isV1Addon = false := by
    rw [AddonInfo.isV1Addon, hAddon, hV2]
    rfl
  have hany : ∀ (o : Options) (pm : PackageManagerKind)
      (pmr gr tmp : String) (imps : List String),
      (AddonInfo.mk i.packageJson o pm pmr gr tmp imps).isV2Addon = true := by
    intro o pm pmr gr tmp imps
    rw [isV2Addon_congr_packageJson
      (AddonInfo.mk i.packageJson o pm pmr gr tmp imps) i rfl]
    exact hV2
  refine ⟨hV2, hV1, ?_⟩
  intro opts g hg
  constructor
  · intro info
    cases hr : g.findRoot with
    | error e => simp [AddonInfo.create, hg, hr]
    | ok root =>
      cases hp : g.guessPackageManager with
      | error e => simp [AddonInfo.create, hg, hr, hp]
      | ok pm => simp [AddonInfo.create, hg, hr, hp, hany]
  · intro root pm hr hp
    simp [AddonInfo.create, hg, hr, hp, hany, AddonInfo.name]

/-- C1 witness: with the concrete v2 manifest `pkgV2` and all gatherers
succeeding, classification is v2 and construction aborts with the
`NothingToDoError` message naming the package. -/
theorem v2_manifest_aborts_create_witness :
    infoV2.isV2Addon = true ∧ infoV2.isV1Addon = false ∧
    (AddonInfo.create emptyOptions gAllOkV2).1 =
      Except.error (CreateError.nothingToDoError
        (infoV2.packageJson.name ++
          " is already a V2 addon. Migration will stop.")) := by
  have h := v2_manifest_aborts_create infoV2 rfl
    ⟨["ember-addon"], rfl, by decide⟩
    ⟨{ version := some 2 }, rfl, rfl⟩
  exact ⟨h.1, h.2.1,
    (h.2.2 emptyOptions gAllOkV2 rfl).2 "/repo"
      { manager := PackageManagerKind.pnpm, root := "/repo" } rfl rfl⟩

/-- C2: construction short-circuits at the first failing gatherer: the run
fails with exactly the taxonomy error of that step, carrying its
user-actionable message; the invocation trace stops at the failing step,
so no downstream gatherer is invoked; and the failing result carries no
`AddonInfo` value. -/
theorem create_short_circuit (opts : Options) (g : Gatherers) :
    (g.packageJsonRead = Except.error () →
      AddonInfo.create opts g =
        (Except.error (CreateError.manifestReadError manifestReadMessage),
          [Step.readManifest]) ∧
      Step.findRoot ∉ (AddonInfo.create opts g).2 ∧
      Step.guessPackageManager ∉ (AddonInfo.create opts g).2 ∧
      Step.analyzeImports ∉ (AddonInfo.create opts g).2 ∧
      Step.createTmp ∉ (AddonInfo.create opts g).2) ∧
    (∀ pkgJson, g.packageJsonRead = Except.ok pkgJson →
      g.findRoot = Except.error () →
      AddonInfo.create opts g =
        (Except.error (CreateError.repoDiscoveryError repoDiscoveryMessage),
          [Step.readManifest, Step.findRoot]) ∧
      Step.guessPackageManager ∉ (AddonInfo.create opts g).2 ∧
      Step.analyzeImports ∉ (AddonInfo.create opts g).2 ∧
      Step.createTmp ∉ (AddonInfo.create opts g).2) ∧
    (∀ pkgJson root, g.packageJsonRead = Except.ok pkgJson →
      g.findRoot = Except.ok root →
      g.guessPackageManager = Except.error () →
      AddonInfo.create opts g =
        (Except.error (CreateError.packageManagerError packageManagerMessage),
          [Step.readManifest, Step.findRoot, Step.guessPackageManager]) ∧
      Step.analyzeImports ∉ (AddonInfo.create opts g).2 ∧
      Step.createTmp ∉ (AddonInfo.create opts g).2) := by
  refine ⟨fun h => ?_, fun pkgJson hp hr => ?_,
    fun pkgJson root hp hr hm => ?_⟩
  · have hc : AddonInfo.create opts g =
        (Except.error (CreateError.manifestReadError manifestReadMessage),
          [Step.readManifest]) := by
      simp [AddonInfo.create, h]
    rw [hc]
    exact ⟨rfl, by decide, by decide, by decide, by decide⟩
  · have hc : AddonInfo.create opts g =
        (Except.error (CreateError.repoDiscoveryError repoDiscoveryMessage),
          [Step.readManifest, Step.findRoot]) := by
      simp [AddonInfo.create, hp, hr]
    rw [hc]
    exact ⟨rfl, by decide, by decide, by decide⟩
  · have hc : AddonInfo.create opts g =
        (Except.error (CreateError.packageManagerError packageManagerMessage),
          [Step.readManifest, Step.findRoot, Step.guessPackageManager]) := by
      simp [AddonInfo.create, hp, hr, hm]
    rw [hc]
    exact ⟨rfl, by decide, by decide⟩

/-- C2 witness: with a failing manifest read, construction fails with
`ManifestReadError` after invoking only the manifest-read step. -/
theorem create_short_circuit_witness :
    gFailManifest.packageJsonRead = Except.error () ∧
    AddonInfo.create emptyOptions gFailManifest =
      (Except.error (CreateError.manifestReadError manifestReadMessage),
        [Step.readManifest]) ∧
    Step.findRoot ∉ (AddonInfo.create emptyOptions gFailManifest).2 := by
  have h := (create_short_circuit emptyOptions gFailManifest).1 rfl
  exact ⟨rfl, h.1, h.2.1⟩
